import Mathlib

/-!
Verification development for the device control-panel repository
(web dashboard + Supabase schema for queuing remote-control commands).

The data model is a shallow embedding of the four persisted tables
(`teams`, `team_members`, `devices`, `commands`) declared in
`supabase/migrations/20251019000741_create_control_panel_schema.sql`.
The operations are translated from:
  * the row-level-security policies of that migration (authorization
    predicates for insert/update/delete on each table);
  * the dashboard components (`sendCommand`, `AddDeviceModal`,
    `EditDeviceModal`, `deleteDevice`, `Teams`: `CreateTeamModal`,
    `ManageTeamModal`, `deleteTeam`);
  * the desktop poller of the integration guide (`pollCommands`,
    heartbeat update).
Opaque uuid keys and timestamps are modelled as `Nat`; SQL `integer`
(the `port` column) is modelled as `Int`.
-/

namespace ControlPanel

/- Opaque uuid keys and timestamps are both modelled as plain `Nat`. -/

/-- Role of a team membership row: `role text CHECK (role IN ('admin', 'member'))`. -/
inductive Role where
  | admin
  | member
deriving DecidableEq

/-- Device liveness status: `status text CHECK (status IN ('online', 'offline', 'unknown'))`. -/
inductive DeviceStatus where
  | online
  | offline
  | unknown
deriving DecidableEq

/-- Command lifecycle status:
`status text CHECK (status IN ('pending', 'delivered', 'executed', 'failed'))`. -/
inductive CommandStatus where
  | pending
  | delivered
  | executed
  | failed
deriving DecidableEq

/-- Command kind: `command_type text CHECK (command_type IN ('unmute_zoom', 'next_track'))`. -/
inductive CommandType where
  | unmute_zoom
  | next_track
deriving DecidableEq

/-- Error kinds of the producer/consumer contracts (spec section 7). -/
inductive Err where
  | NotAuthorized
  | ValidationError
  | InvalidPort
  | InvalidTransition
  | NotFound
deriving DecidableEq

/-- Row of the `teams` table. -/
structure Team where
  id : Nat
  name : String
  created_by : Nat
  created_at : Nat
deriving DecidableEq

/-- Row of the `team_members` table. -/
structure TeamMember where
  id : Nat
  team_id : Nat
  user_id : Nat
  role : Role
  joined_at : Nat
deriving DecidableEq

/-- Row of the `devices` table.  `team_id` and `last_seen` are nullable;
`port` is a SQL `integer` with `CHECK (port > 0 AND port <= 65535)`. -/
structure Device where
  id : Nat
  name : String
  ip_address : String
  port : Int
  owner_id : Nat
  team_id : Option Nat
  status : DeviceStatus
  last_seen : Option Nat
  created_at : Nat
deriving DecidableEq

/-- Row of the `commands` table.  `executed_at` is nullable; `payload`
is an opaque jsonb value kept as its source text (default `'\x7b\x7d'`). -/
structure Command where
  id : Nat
  device_id : Nat
  command_type : CommandType
  payload : String
  status : CommandStatus
  sent_by : Nat
  sent_at : Nat
  executed_at : Option Nat
deriving DecidableEq

/-- The relational store: the four tables of the migration. -/
structure Store where
  teams : List Team
  team_members : List TeamMember
  devices : List Device
  commands : List Command
deriving DecidableEq

/-- The store right after the migration runs: all four tables empty. -/
def emptyStore : Store :=
  { teams := [], team_members := [], devices := [], commands := [] }

/-- `EXISTS (SELECT 1 FROM team_members WHERE team_members.team_id = ... AND team_members.user_id = auth.uid())`. -/
def isTeamMember (s : Store) (tid : Nat) (u : Nat) : Bool :=
  s.team_members.any fun m => m.team_id == tid && m.user_id == u

/-- `EXISTS (SELECT 1 FROM teams WHERE teams.id = ... AND teams.created_by = auth.uid())`. -/
def isTeamCreator (s : Store) (tid : Nat) (u : Nat) : Bool :=
  s.teams.any fun t => t.id == tid && t.created_by == u

/-- Insert predicate of the two `commands` INSERT policies ("Users can send
commands to their devices" OR "Team members can send commands to team
devices"): the acting user owns the target device, or the device's
(non-null) team has a membership row for the acting user. -/
def canSendCommand (s : Store) (u : Nat) (d : Device) : Bool :=
  d.owner_id == u ||
    match d.team_id with
    | some tid => isTeamMember s tid u
    | none => false

/-- Update predicate of the two `devices` UPDATE policies ("Device owners can
update their devices" OR "Team admins can update team devices"): the acting
user is the owner, or the device's team is non-null and its `teams` row has
`created_by` equal to the acting user. -/
def canUpdateDevice (s : Store) (u : Nat) (d : Device) : Bool :=
  d.owner_id == u ||
    match d.team_id with
    | some tid => isTeamCreator s tid u
    | none => false

/-- Delete predicate of the `devices` DELETE policy ("Device owners can
delete their devices"): `owner_id = auth.uid()`. -/
def canDeleteDevice (u : Nat) (d : Device) : Bool :=
  d.owner_id == u

def findDevice (s : Store) (devId : Nat) : Option Device :=
  s.devices.find? fun d => d.id == devId

def findCommand (s : Store) (cid : Nat) : Option Command :=
  s.commands.find? fun c => c.id == cid

def findTeam (s : Store) (tid : Nat) : Option Team :=
  s.teams.find? fun t => t.id == tid

def findMember (s : Store) (mid : Nat) : Option TeamMember :=
  s.team_members.find? fun m => m.id == mid

/-- Fresh key generation.  Every `id` column has `DEFAULT gen_random_uuid()`
and is a PRIMARY KEY, so an insert always receives a key distinct from
every existing one; over `Nat` keys this is one more than the maximum. -/
def freshId (l : List Nat) : Nat :=
  l.foldr (fun a b => max a b) 0 + 1

theorem le_foldr_max (l : List Nat) : ∀ a ∈ l, a ≤ l.foldr (fun a b => max a b) 0 := by
  induction l with
  | nil => intro a ha; cases ha
  | cons x xs ih =>
    intro a ha
    rcases List.mem_cons.1 ha with rfl | ha
    · exact Nat.le_max_left _ _
    · exact Nat.le_trans (ih a ha) (Nat.le_max_right _ _)

theorem freshId_not_mem (l : List Nat) : freshId l ∉ l := by
  intro hmem
  have := le_foldr_max l _ hmem
  unfold freshId at this
  omega

/-- Constraint violations of a device registration / edit form submission.
The port bounds come from the `min="1" max="65535"` attributes of the port
input (and the table constraint `CHECK (port > 0 AND port <= 65535)`); the
emptiness checks come from the `required` attributes on the name and
IP-address inputs.  Browser constraint validation flags every violated
control of the form at once, so the result is the list of all violations. -/
def deviceErrors (name host : String) (port : Int) : List Err :=
  (if port < 1 || port > 65535 then [Err.InvalidPort] else []) ++
    (if name == "" || host == "" then [Err.ValidationError] else [])

/-- `AddDeviceModal.handleSubmit`: insert a `devices` row carrying the form
fields, after form validation.  The unset columns take their table
defaults: `team_id` null, `status 'unknown'`, `last_seen` null. -/
def registerDevice (s : Store) (name host : String) (port : Int)
    (owner : Nat) (now : Nat) : Except (List Err) Store :=
  let errs := deviceErrors name host port
  if errs.isEmpty then
    Except.ok { s with devices := s.devices ++
      [{ id := freshId (s.devices.map Device.id), name := name, ip_address := host, port := port,
         owner_id := owner, team_id := none, status := DeviceStatus.unknown,
         last_seen := none, created_at := now }] }
  else
    Except.error errs

/-- `EditDeviceModal.handleSubmit`: update `name`, `ip_address`, `port` of
the device row (and no other column), after the same form validation,
guarded by the `devices` UPDATE policies. -/
def editDevice (s : Store) (actor : Nat) (devId : Nat)
    (name host : String) (port : Int) : Except (List Err) Store :=
  let errs := deviceErrors name host port
  if errs.isEmpty then
    match findDevice s devId with
    | none => Except.error [Err.NotFound]
    | some d =>
      if canUpdateDevice s actor d then
        Except.ok { s with devices := s.devices.map fun x =>
          if x.id == devId then { x with name := name, ip_address := host, port := port } else x }
      else
        Except.error [Err.NotAuthorized]
  else
    Except.error errs

/-- `Dashboard.deleteDevice`: `DELETE FROM devices WHERE id = devId`,
guarded by the owner-only DELETE policy; the `commands.device_id`
foreign key is declared `ON DELETE CASCADE`, so every command of the
device is removed with it. -/
def deleteDevice (s : Store) (actor : Nat) (devId : Nat) : Except Err Store :=
  match findDevice s devId with
  | none => Except.error Err.NotFound
  | some d =>
    if canDeleteDevice actor d then
      Except.ok { s with
        devices := s.devices.filter fun x => x.id != devId,
        commands := s.commands.filter fun c => c.device_id != devId }
    else
      Except.error Err.NotAuthorized

/-- `Dashboard.sendCommand`: insert a `commands` row with
`status := 'pending'`, `sent_by := user.id`, payload left to its jsonb
default, guarded by the `commands` INSERT policies. -/
def issueCommand (s : Store) (actor : Nat) (devId : Nat)
    (ctype : CommandType) (now : Nat) : Except Err Store :=
  match findDevice s devId with
  | none => Except.error Err.NotFound
  | some d =>
    if canSendCommand s actor d then
      Except.ok { s with commands := s.commands ++
        [{ id := freshId (s.commands.map Command.id), device_id := devId, command_type := ctype,
           payload := "\x7b\x7d", status := CommandStatus.pending,
           sent_by := actor, sent_at := now, executed_at := none }] }
    else
      Except.error Err.NotAuthorized

/-- The `ORDER BY sent_at ASC` ordering on command rows. -/
def sentAtLe (a b : Command) : Prop :=
  a.sent_at ≤ b.sent_at

instance : DecidableRel sentAtLe :=
  fun a b => Nat.decLe a.sent_at b.sent_at

instance : IsTotal Command sentAtLe :=
  ⟨fun a b => Nat.le_total a.sent_at b.sent_at⟩

instance : IsTrans Command sentAtLe :=
  ⟨fun _ _ _ hab hbc => Nat.le_trans hab hbc⟩

/-- `pollCommands` of the integration guide's desktop client:
`SELECT * FROM commands WHERE device_id = ? AND status = 'pending'
ORDER BY sent_at ASC`. -/
def fetchPending (s : Store) (devId : Nat) : List Command :=
  (s.commands.filter fun c =>
    c.device_id == devId && c.status == CommandStatus.pending).insertionSort sentAtLe

/-- Edges of the command lifecycle state machine (spec section 4.1):
pending to delivered, delivered to executed, pending to failed,
delivered to failed; `executed` and `failed` are terminal. -/
def canTransition : CommandStatus → CommandStatus → Bool
  | CommandStatus.pending, CommandStatus.delivered => true
  | CommandStatus.delivered, CommandStatus.executed => true
  | CommandStatus.pending, CommandStatus.failed => true
  | CommandStatus.delivered, CommandStatus.failed => true
  | _, _ => false

/-- Modelled from the spec: operation `reportStatus(commandId, newStatus,
executedAt?)` of the Consumer Contract (spec section 4.4) — the Consumer
process itself is external to this repository, only the integration
guide's example client calls the underlying status updates.  It fails
with `InvalidTransition` if `newStatus` is not reachable from the
command's current status per the section 4.1 state machine; otherwise it
applies the transition, and the transition into `executed` atomically
sets the execution timestamp. -/
def reportStatus (s : Store) (cid : Nat) (ns : CommandStatus)
    (t : Nat) : Except Err Store :=
  match findCommand s cid with
  | none => Except.error Err.NotFound
  | some c =>
    if canTransition c.status ns then
      Except.ok { s with commands := s.commands.map fun x =>
        if x.id == cid then
          { x with status := ns,
                   executed_at := if ns == CommandStatus.executed then some t else x.executed_at }
        else x }
    else
      Except.error Err.InvalidTransition

/-- Heartbeat of the integration guide's desktop client (service-role
credentials, so no row-level-security guard):
`UPDATE devices SET status = 'online', last_seen = now() WHERE id = ?`. -/
def heartbeat (s : Store) (devId : Nat) (now : Nat) : Store :=
  { s with devices := s.devices.map fun d =>
      if d.id == devId then
        { d with status := DeviceStatus.online, last_seen := some now }
      else d }

/-- `CreateTeamModal.handleSubmit`: insert the `teams` row and an
`admin`-role membership row for the creator. -/
def createTeam (s : Store) (actor : Nat) (name : String) (now : Nat) : Store :=
  let tid := freshId (s.teams.map Team.id)
  { s with
    teams := s.teams ++ [{ id := tid, name := name, created_by := actor, created_at := now }],
    team_members := s.team_members ++
      [{ id := freshId (s.team_members.map TeamMember.id), team_id := tid,
         user_id := actor, role := Role.admin, joined_at := now }] }

/-- `ManageTeamModal.addMember`: insert a `member`-role membership row,
guarded by the `team_members` INSERT policy (team creator only). -/
def addMember (s : Store) (actor : Nat) (tid : Nat) (uid : Nat)
    (now : Nat) : Except Err Store :=
  match findTeam s tid with
  | none => Except.error Err.NotFound
  | some t =>
    if t.created_by == actor then
      Except.ok { s with team_members := s.team_members ++
        [{ id := freshId (s.team_members.map TeamMember.id), team_id := tid,
           user_id := uid, role := Role.member, joined_at := now }] }
    else
      Except.error Err.NotAuthorized

/-- `ManageTeamModal.removeMember`: delete a membership row, guarded by the
`team_members` DELETE policies (team creator, or the member removing
themself). -/
def removeMember (s : Store) (actor : Nat) (mid : Nat) : Except Err Store :=
  match findMember s mid with
  | none => Except.error Err.NotFound
  | some m =>
    if isTeamCreator s m.team_id actor || m.user_id == actor then
      Except.ok { s with team_members := s.team_members.filter fun x => x.id != mid }
    else
      Except.error Err.NotAuthorized

/-- `Teams.deleteTeam`: `DELETE FROM teams WHERE id = tid`, guarded by the
creator-only DELETE policy.  `team_members.team_id` is `ON DELETE
CASCADE` (memberships removed); `devices.team_id` is `ON DELETE SET
NULL` (devices kept, their team reference cleared); commands are not
referenced and stay untouched. -/
def deleteTeam (s : Store) (actor : Nat) (tid : Nat) : Except Err Store :=
  match findTeam s tid with
  | none => Except.error Err.NotFound
  | some t =>
    if t.created_by == actor then
      Except.ok { s with
        teams := s.teams.filter fun x => x.id != tid,
        team_members := s.team_members.filter fun m => m.team_id != tid,
        devices := s.devices.map fun d =>
          if d.team_id == some tid then { d with team_id := none } else d }
    else
      Except.error Err.NotAuthorized

/-- One successful application of any operation of the system. -/
inductive Step : Store → Store → Prop where
  | register (s s' : Store) (name host : String) (port : Int) (owner : Nat)
      (now : Nat)
      (h : registerDevice s name host port owner now = Except.ok s') : Step s s'
  | edit (s s' : Store) (actor : Nat) (devId : Nat) (name host : String) (port : Int)
      (h : editDevice s actor devId name host port = Except.ok s') : Step s s'
  | deleteDev (s s' : Store) (actor : Nat) (devId : Nat)
      (h : deleteDevice s actor devId = Except.ok s') : Step s s'
  | issue (s s' : Store) (actor : Nat) (devId : Nat) (ctype : CommandType)
      (now : Nat)
      (h : issueCommand s actor devId ctype now = Except.ok s') : Step s s'
  | report (s s' : Store) (cid : Nat) (ns : CommandStatus) (t : Nat)
      (h : reportStatus s cid ns t = Except.ok s') : Step s s'
  | beat (s s' : Store) (devId : Nat) (now : Nat)
      (h : s' = heartbeat s devId now) : Step s s'
  | mkTeam (s s' : Store) (actor : Nat) (name : String) (now : Nat)
      (h : s' = createTeam s actor name now) : Step s s'
  | addMem (s s' : Store) (actor : Nat) (tid : Nat) (uid : Nat)
      (now : Nat)
      (h : addMember s actor tid uid now = Except.ok s') : Step s s'
  | removeMem (s s' : Store) (actor : Nat) (mid : Nat)
      (h : removeMember s actor mid = Except.ok s') : Step s s'
  | deleteTm (s s' : Store) (actor : Nat) (tid : Nat)
      (h : deleteTeam s actor tid = Except.ok s') : Step s s'

/-- Stores reachable from the freshly migrated (empty) store by the
operations of the system. -/
def Reachable (s : Store) : Prop :=
  Relation.ReflTransGen Step emptyStore s

theorem find_command_mem {s : Store} {cid : Nat} {c : Command}
    (h : findCommand s cid = some c) : c ∈ s.commands ∧ c.id = cid := by
  refine ⟨List.mem_of_find?_eq_some h, ?_⟩
  have := List.find?_some h
  simpa using this

/-- C1: status transitions only follow the edges pending to delivered,
delivered to executed, pending to failed, delivered to failed:
`reportStatus` fails with `InvalidTransition` whenever the new status is
not reachable from the command's current status, no command leaves a
terminal state (`executed` or `failed`), and `issueCommand` only ever
creates commands in status `pending`. -/
theorem c1_command_lifecycle :
    (∀ (s : Store) (cid : Nat) (ns : CommandStatus) (t : Nat) (c : Command),
      findCommand s cid = some c → canTransition c.status ns = false →
      reportStatus s cid ns t = Except.error Err.InvalidTransition) ∧
    (∀ (s : Store) (cid : Nat) (ns : CommandStatus) (t : Nat) (c : Command),
      findCommand s cid = some c →
      (c.status = CommandStatus.executed ∨ c.status = CommandStatus.failed) →
      reportStatus s cid ns t = Except.error Err.InvalidTransition) ∧
    (∀ (s : Store) (cid : Nat) (ns : CommandStatus) (t : Nat) (s' : Store),
      reportStatus s cid ns t = Except.ok s' →
      ∀ c2 ∈ s'.commands, ∃ c1 ∈ s.commands, c1.id = c2.id ∧
        (c1.status = c2.status ∨ canTransition c1.status c2.status = true)) ∧
    (∀ (s : Store) (u : Nat) (devId : Nat) (ct : CommandType)
      (now : Nat) (s' : Store),
      issueCommand s u devId ct now = Except.ok s' →
      ∀ c ∈ s'.commands, c ∈ s.commands ∨ c.status = CommandStatus.pending) := by
  refine ⟨?_, ?_, ?_, ?_⟩
  · intro s cid ns t c hfind hcant
    simp [reportStatus, hfind, hcant]
  · intro s cid ns t c hfind hterm
    have hcant : canTransition c.status ns = false := by
      rcases hterm with h | h <;> rw [h] <;> cases ns <;> rfl
    simp [reportStatus, hfind, hcant]
  · intro s cid ns t s' h c2 hc2
    unfold reportStatus at h
    cases hf : findCommand s cid with
    | none => rw [hf] at h; exact absurd h (by simp)
    | some c =>
      rw [hf] at h
      dsimp only at h
      obtain ⟨hcmem, hcid⟩ := find_command_mem hf
      by_cases hct : canTransition c.status ns
      · rw [if_pos hct] at h
        have hs' : s' = { s with commands := s.commands.map fun x =>
            if x.id == cid then
              { x with status := ns,
                       executed_at := if ns == CommandStatus.executed then some t else x.executed_at }
            else x } := by
          cases h; rfl
        subst hs'
        simp only [List.mem_map] at hc2
        obtain ⟨x, hx, hfx⟩ := hc2
        by_cases hid : x.id == cid
        · rw [if_pos hid] at hfx
          refine ⟨c, hcmem, ?_, Or.inr ?_⟩
          · rw [hcid, ← hfx]
            have hx2 : x.id = cid := by simpa using (hid : (x.id == cid) = true)
            simp [hx2]
          · rw [← hfx]
            exact hct
        · rw [if_neg hid] at hfx
          exact ⟨x, hx, by rw [hfx], Or.inl (by rw [hfx])⟩
      · rw [if_neg hct] at h
        exact absurd h (by simp)
  · intro s u devId ct now s' h c hc
    unfold issueCommand at h
    cases hf : findDevice s devId with
    | none => rw [hf] at h; exact absurd h (by simp)
    | some d =>
      rw [hf] at h
      dsimp only at h
      by_cases hcan : canSendCommand s u d
      · rw [if_pos hcan] at h
        have hs' : s' = { s with commands := s.commands ++
            [{ id := freshId (s.commands.map Command.id), device_id := devId,
               command_type := ct,
               payload := "\x7b\x7d", status := CommandStatus.pending,
               sent_by := u, sent_at := now, executed_at := none }] } := by
          cases h; rfl
        subst hs'
        simp only [List.mem_append, List.mem_singleton] at hc
        rcases hc with hc | hc
        · exact Or.inl hc
        · exact Or.inr (by rw [hc])
      · rw [if_neg hcan] at h
        exact absurd h (by simp)

/-- Concrete demonstration store for the C1 witness: one device and one
command already in the terminal status `executed`. -/
def w1Cmd : Command :=
  { id := 1, device_id := 1, command_type := CommandType.unmute_zoom,
    payload := "", status := CommandStatus.executed, sent_by := 7,
    sent_at := 2, executed_at := some 3 }

def w1Store : Store :=
  { teams := [], team_members := [],
    devices := [{ id := 1, name := "Prime", ip_address := "10.0.0.1", port := 3000,
                  owner_id := 7, team_id := none, status := DeviceStatus.online,
                  last_seen := some 4, created_at := 0 }],
    commands := [w1Cmd] }

theorem c1_command_lifecycle_witness :
    reportStatus w1Store 1 CommandStatus.pending 9 = Except.error Err.InvalidTransition :=
  c1_command_lifecycle.2.1 w1Store 1 CommandStatus.pending 9 w1Cmd (by rfl) (Or.inl rfl)

theorem canSendCommand_eq_false {s : Store} {u : Nat} {d : Device}
    (howner : d.owner_id ≠ u)
    (hmem : ∀ m ∈ s.team_members, d.team_id = some m.team_id → m.user_id ≠ u) :
    canSendCommand s u d = false := by
  unfold canSendCommand
  cases ht : d.team_id with
  | none =>
    simp [howner]
  | some tid =>
    simp only [Bool.or_eq_false_iff]
    refine ⟨by simpa using howner, ?_⟩
    unfold isTeamMember
    rw [List.any_eq_false]
    intro m hm
    simp only [Bool.and_eq_true, beq_iff_eq, not_and]
    intro hmt
    exact fun hu => hmem m hm (by rw [ht, hmt]) hu

theorem canSendCommand_eq_true {s : Store} {u : Nat} {d : Device}
    (h : d.owner_id = u ∨ ∃ m ∈ s.team_members, d.team_id = some m.team_id ∧ m.user_id = u) :
    canSendCommand s u d = true := by
  unfold canSendCommand
  rcases h with h | ⟨m, hm, hmt, hmu⟩
  · simp [h]
  · rw [hmt]
    simp only [Bool.or_eq_true, beq_iff_eq]
    right
    unfold isTeamMember
    rw [List.any_eq_true]
    exact ⟨m, hm, by simp [hmu]⟩

/-- C3: for a user who is neither the owner of the target device nor a
member of its team, `issueCommand` fails with `NotAuthorized` and the
command store is unchanged (the error branch inserts nothing); for an
owner or team member, a new command row is appended with status
`pending` and `sent_by` equal to the issuing user. -/
theorem c3_issue_command_auth :
    (∀ (s : Store) (u : Nat) (devId : Nat) (ct : CommandType) (now : Nat) (d : Device),
      findDevice s devId = some d →
      d.owner_id ≠ u →
      (∀ m ∈ s.team_members, d.team_id = some m.team_id → m.user_id ≠ u) →
      issueCommand s u devId ct now = Except.error Err.NotAuthorized) ∧
    (∀ (s : Store) (u : Nat) (devId : Nat) (ct : CommandType) (now : Nat) (d : Device),
      findDevice s devId = some d →
      (d.owner_id = u ∨ ∃ m ∈ s.team_members, d.team_id = some m.team_id ∧ m.user_id = u) →
      ∃ c : Command, issueCommand s u devId ct now =
        Except.ok { s with commands := s.commands ++ [c] } ∧
        c.status = CommandStatus.pending ∧ c.sent_by = u ∧ c.device_id = devId ∧
        c.sent_at = now) := by
  constructor
  · intro s u devId ct now d hfind howner hmem
    have hfalse := canSendCommand_eq_false howner hmem
    simp [issueCommand, hfind, hfalse]
  · intro s u devId ct now d hfind hauth
    have htrue := canSendCommand_eq_true hauth
    refine ⟨{ id := freshId (s.commands.map Command.id), device_id := devId, command_type := ct,
              payload := "\x7b\x7d", status := CommandStatus.pending,
              sent_by := u, sent_at := now, executed_at := none }, ?_, rfl, rfl, rfl, rfl⟩
    simp [issueCommand, hfind, htrue]

/-- C4: the producer-side operations never write the `status` or
`last_seen` column of any device: `issueCommand` leaves the device table
untouched, `registerDevice` only appends a row with the creation
defaults, `editDevice` rewrites only `name`, `ip_address` and `port`,
and `deleteDevice` only removes rows. -/
theorem c4_producer_frame :
    (∀ (s : Store) (u : Nat) (devId : Nat) (ct : CommandType) (now : Nat)
      (s' : Store),
      issueCommand s u devId ct now = Except.ok s' → s'.devices = s.devices) ∧
    (∀ (s : Store) (name host : String) (port : Int) (owner : Nat) (now : Nat)
      (s' : Store),
      registerDevice s name host port owner now = Except.ok s' →
      (∀ d ∈ s.devices, d ∈ s'.devices) ∧
      ∀ d ∈ s'.devices, d ∈ s.devices ∨
        (d.status = DeviceStatus.unknown ∧ d.last_seen = none)) ∧
    (∀ (s : Store) (u : Nat) (devId : Nat) (name host : String) (port : Int)
      (s' : Store),
      editDevice s u devId name host port = Except.ok s' →
      ∀ d2 ∈ s'.devices, ∃ d1 ∈ s.devices, d1.id = d2.id ∧
        d2.status = d1.status ∧ d2.last_seen = d1.last_seen) ∧
    (∀ (s : Store) (u : Nat) (devId : Nat) (s' : Store),
      deleteDevice s u devId = Except.ok s' → ∀ d ∈ s'.devices, d ∈ s.devices) := by
  refine ⟨?_, ?_, ?_, ?_⟩
  · intro s u devId ct now s' h
    unfold issueCommand at h
    cases hf : findDevice s devId with
    | none => rw [hf] at h; exact absurd h (by simp)
    | some d =>
      rw [hf] at h
      dsimp only at h
      by_cases hcan : canSendCommand s u d
      · rw [if_pos hcan] at h
        cases h; rfl
      · rw [if_neg hcan] at h
        exact absurd h (by simp)
  · intro s name host port owner now s' h
    unfold registerDevice at h
    by_cases he : (deviceErrors name host port).isEmpty
    · rw [if_pos he] at h
      cases h
      constructor
      · intro d hd
        exact List.mem_append_left _ hd
      · intro d hd
        rcases List.mem_append.1 hd with hd | hd
        · exact Or.inl hd
        · rcases List.mem_singleton.1 hd with rfl
          exact Or.inr ⟨rfl, rfl⟩
    · rw [if_neg he] at h
      exact absurd h (by simp)
  · intro s u devId name host port s' h
    unfold editDevice at h
    by_cases he : (deviceErrors name host port).isEmpty
    · rw [if_pos he] at h
      cases hf : findDevice s devId with
      | none => rw [hf] at h; exact absurd h (by simp)
      | some d =>
        rw [hf] at h
        dsimp only at h
        by_cases hcan : canUpdateDevice s u d
        · rw [if_pos hcan] at h
          cases h
          intro d2 hd2
          simp only [List.mem_map] at hd2
          obtain ⟨x, hx, hfx⟩ := hd2
          by_cases hid : x.id == devId
          · rw [if_pos hid] at hfx
            exact ⟨x, hx, by rw [← hfx], by rw [← hfx], by rw [← hfx]⟩
          · rw [if_neg hid] at hfx
            exact ⟨x, hx, by rw [hfx], by rw [hfx], by rw [hfx]⟩
        · rw [if_neg hcan] at h
          exact absurd h (by simp)
    · rw [if_neg he] at h
      exact absurd h (by simp)
  · intro s u devId s' h
    unfold deleteDevice at h
    cases hf : findDevice s devId with
    | none => rw [hf] at h; exact absurd h (by simp)
    | some d =>
      rw [hf] at h
      dsimp only at h
      by_cases hcan : canDeleteDevice u d
      · rw [if_pos hcan] at h
        cases h
        intro x hx
        exact List.mem_of_mem_filter hx
      · rw [if_neg hcan] at h
        exact absurd h (by simp)

/-- C6: `deleteDevice` fails with `NotAuthorized` for any acting user
other than the owner; for the owner it removes the device and every
command referencing it (`ON DELETE CASCADE`), so a subsequent lookup of
the device yields none and a fetch of its pending commands is empty. -/
theorem c6_delete_device :
    (∀ (s : Store) (u : Nat) (devId : Nat) (d : Device),
      findDevice s devId = some d → d.owner_id ≠ u →
      deleteDevice s u devId = Except.error Err.NotAuthorized) ∧
    (∀ (s : Store) (u : Nat) (devId : Nat) (d : Device),
      findDevice s devId = some d → d.owner_id = u →
      ∃ s', deleteDevice s u devId = Except.ok s' ∧
        findDevice s' devId = none ∧
        (∀ c ∈ s'.commands, c.device_id ≠ devId) ∧
        fetchPending s' devId = []) := by
  constructor
  · intro s u devId d hfind howner
    have hcan : canDeleteDevice u d = false := by
      unfold canDeleteDevice
      simpa using howner
    simp [deleteDevice, hfind, hcan]
  · intro s u devId d hfind howner
    have hcan : canDeleteDevice u d = true := by
      unfold canDeleteDevice
      simpa using howner
    have hres : deleteDevice s u devId = Except.ok { s with
        devices := s.devices.filter (fun x => x.id != devId),
        commands := s.commands.filter (fun c => c.device_id != devId) } := by
      simp [deleteDevice, hfind, hcan]
    refine ⟨_, hres, ?_, ?_, ?_⟩
    · unfold findDevice
      rw [List.find?_eq_none]
      intro x hx
      have := List.of_mem_filter hx
      simpa using this
    · intro c hc
      have := List.of_mem_filter hc
      simpa using this
    · unfold fetchPending
      have hnil : (List.filter (fun c =>
          c.device_id == devId && c.status == CommandStatus.pending)
          (s.commands.filter fun c => c.device_id != devId)) = [] := by
        rw [List.filter_eq_nil_iff]
        intro c hc
        have := List.of_mem_filter hc
        simp only [bne_iff_ne, ne_eq] at this
        simp [this]
      simp only [hnil]
      rfl

/-- Concrete demonstration store shared by several witnesses: one team
created by user 7, one explicit `member`-role row for user 9, and one
device owned by user 7 assigned to that team. -/
def w3Dev : Device :=
  { id := 1, name := "Prime", ip_address := "10.0.0.1", port := 3000,
    owner_id := 7, team_id := some 1, status := DeviceStatus.unknown,
    last_seen := none, created_at := 0 }

def w3Mem : TeamMember :=
  { id := 1, team_id := 1, user_id := 9, role := Role.member, joined_at := 0 }

def w3Store : Store :=
  { teams := [{ id := 1, name := "DJ", created_by := 7, created_at := 0 }],
    team_members := [w3Mem], devices := [w3Dev], commands := [] }

theorem c3_issue_command_auth_witness :
    issueCommand w3Store 8 1 CommandType.unmute_zoom 5 = Except.error Err.NotAuthorized ∧
    ∃ c : Command, issueCommand w3Store 9 1 CommandType.next_track 6 =
      Except.ok { w3Store with commands := w3Store.commands ++ [c] } ∧
      c.status = CommandStatus.pending ∧ c.sent_by = 9 ∧ c.device_id = 1 ∧ c.sent_at = 6 :=
  ⟨c3_issue_command_auth.1 w3Store 8 1 CommandType.unmute_zoom 5 w3Dev rfl (by decide) (by decide),
   c3_issue_command_auth.2 w3Store 9 1 CommandType.next_track 6 w3Dev rfl
     (Or.inr ⟨w3Mem, by decide, rfl, rfl⟩)⟩

def w4After : Store :=
  { w3Store with devices :=
      [{ w3Dev with name := "Prime2", ip_address := "10.0.0.2", port := 4000 }] }

theorem c4_producer_frame_witness :
    ∀ d2 ∈ w4After.devices, ∃ d1 ∈ w3Store.devices, d1.id = d2.id ∧
      d2.status = d1.status ∧ d2.last_seen = d1.last_seen :=
  c4_producer_frame.2.2.1 w3Store 7 1 "Prime2" "10.0.0.2" 4000 w4After (by rfl)

theorem c6_delete_device_witness :
    deleteDevice w3Store 8 1 = Except.error Err.NotAuthorized ∧
    ∃ s', deleteDevice w3Store 7 1 = Except.ok s' ∧
      findDevice s' 1 = none ∧ (∀ c ∈ s'.commands, c.device_id ≠ 1) ∧
      fetchPending s' 1 = [] :=
  ⟨c6_delete_device.1 w3Store 8 1 w3Dev rfl (by decide),
   c6_delete_device.2 w3Store 7 1 w3Dev rfl rfl⟩

/-- C5: `fetchPending` returns exactly the commands of the device whose
status is `pending` (a permutation of that filter of the command table),
sorted by `sent_at` ascending; consequently, when the device's pending
commands are exactly three commands with strictly increasing `sent_at`,
the returned sequence is those three commands in that exact order. -/
theorem c5_fetch_pending :
    (∀ (s : Store) (devId : Nat),
      (fetchPending s devId).Perm (s.commands.filter fun c =>
        c.device_id == devId && c.status == CommandStatus.pending)) ∧
    (∀ (s : Store) (devId : Nat),
      (fetchPending s devId).Pairwise sentAtLe) ∧
    (∀ (s : Store) (devId : Nat) (c1 c2 c3 : Command),
      (s.commands.filter fun c =>
        c.device_id == devId && c.status == CommandStatus.pending).Perm [c1, c2, c3] →
      c1.sent_at < c2.sent_at → c2.sent_at < c3.sent_at →
      fetchPending s devId = [c1, c2, c3]) := by
  refine ⟨?_, ?_, ?_⟩
  · intro s devId
    exact List.perm_insertionSort sentAtLe _
  · intro s devId
    exact List.sorted_insertionSort sentAtLe _
  · intro s devId c1 c2 c3 hperm h12 h23
    have hp : (fetchPending s devId).Perm [c1, c2, c3] :=
      (List.perm_insertionSort sentAtLe _).trans hperm
    have hs : (fetchPending s devId).Pairwise sentAtLe :=
      List.sorted_insertionSort sentAtLe _
    have hlen : (fetchPending s devId).length = 3 := by
      rw [hp.length_eq]; rfl
    rcases hl : fetchPending s devId with _ | ⟨a, _ | ⟨b, _ | ⟨c, _ | ⟨d, l⟩⟩⟩⟩ <;>
      rw [hl] at hlen <;> try simp at hlen
    rw [hl] at hp hs
    simp only [List.pairwise_cons, List.mem_cons, List.mem_singleton,
      List.not_mem_nil] at hs
    have hab : a.sent_at ≤ b.sent_at := hs.1 b (Or.inl rfl)
    have hac : a.sent_at ≤ c.sent_at := hs.1 c (Or.inr (Or.inl rfl))
    have hbc : b.sent_at ≤ c.sent_at := hs.2.1 c (Or.inl rfl)
    have hmema : a ∈ [c1, c2, c3] := hp.mem_iff.1 (by simp)
    have ha : a = c1 := by
      have hmemc1 : c1 ∈ [a, b, c] := hp.mem_iff.2 (by simp)
      rcases List.mem_cons.1 hmema with h | h
      · exact h
      · exfalso
        have hasent : a.sent_at = c2.sent_at ∨ a.sent_at = c3.sent_at := by
          rcases List.mem_cons.1 h with h | h
          · exact Or.inl (by rw [h])
          · rcases List.mem_singleton.1 h with rfl
            exact Or.inr rfl
        have hc1sent : c1.sent_at = a.sent_at ∨ c1.sent_at = b.sent_at ∨
            c1.sent_at = c.sent_at := by
          rcases List.mem_cons.1 hmemc1 with h1 | h1
          · exact Or.inl (by rw [h1])
          · rcases List.mem_cons.1 h1 with h1 | h1
            · exact Or.inr (Or.inl (by rw [h1]))
            · rcases List.mem_singleton.1 h1 with rfl
              exact Or.inr (Or.inr rfl)
        rcases hasent with h2 | h2 <;> rcases hc1sent with h3 | h3 | h3 <;> omega
    subst ha
    have hp2 : [b, c].Perm [c2, c3] := hp.cons_inv
    have hmemb : b ∈ [c2, c3] := hp2.mem_iff.1 (by simp)
    have hb : b = c2 := by
      rcases List.mem_cons.1 hmemb with h | h
      · exact h
      · exfalso
        rcases List.mem_singleton.1 h with h
        have hb3 : b.sent_at = c3.sent_at := by rw [h]
        have hmemc2 : c2 ∈ [b, c] := hp2.mem_iff.2 (by simp)
        have hc2sent : c2.sent_at = b.sent_at ∨ c2.sent_at = c.sent_at := by
          rcases List.mem_cons.1 hmemc2 with h1 | h1
          · exact Or.inl (by rw [h1])
          · rcases List.mem_singleton.1 h1 with rfl
            exact Or.inr rfl
        rcases hc2sent with h3 | h3 <;> omega
    subst hb
    have hp3 : [c].Perm [c3] := hp2.cons_inv
    have hc : c = c3 := List.mem_singleton.1 (hp3.mem_iff.1 (by simp))
    rw [hc]

/-- Three pending commands for device 1 issued at times 1 < 2 < 3,
stored in scrambled order. -/
def w5c1 : Command :=
  { id := 1, device_id := 1, command_type := CommandType.unmute_zoom,
    payload := "", status := CommandStatus.pending, sent_by := 7,
    sent_at := 1, executed_at := none }

def w5c2 : Command :=
  { id := 2, device_id := 1, command_type := CommandType.next_track,
    payload := "", status := CommandStatus.pending, sent_by := 7,
    sent_at := 2, executed_at := none }

def w5c3 : Command :=
  { id := 3, device_id := 1, command_type := CommandType.unmute_zoom,
    payload := "", status := CommandStatus.pending, sent_by := 7,
    sent_at := 3, executed_at := none }

def w5Store : Store :=
  { teams := [], team_members := [], devices := [], commands := [w5c3, w5c1, w5c2] }

theorem c5_fetch_pending_witness :
    fetchPending w5Store 1 = [w5c1, w5c2, w5c3] :=
  c5_fetch_pending.2.2 w5Store 1 w5c1 w5c2 w5c3 (by decide) (by decide) (by decide)

/-- C8: device registration with an empty name or empty host is rejected
with a `ValidationError` among the reported violations and creates no
row; a successful registration appends a device carrying the form fields
with the creation defaults status `unknown`, no team and null
`last_seen`. -/
theorem c8_register_validation :
    (∀ (s : Store) (name host : String) (port : Int) (owner now : Nat),
      name = "" ∨ host = "" →
      ∃ errs, registerDevice s name host port owner now = Except.error errs ∧
        Err.ValidationError ∈ errs ∧
        ∀ s', registerDevice s name host port owner now ≠ Except.ok s') ∧
    (∀ (s : Store) (name host : String) (port : Int) (owner now : Nat) (s' : Store),
      registerDevice s name host port owner now = Except.ok s' →
      ∃ d : Device, s'.devices = s.devices ++ [d] ∧
        d.status = DeviceStatus.unknown ∧ d.team_id = none ∧ d.last_seen = none ∧
        d.name = name ∧ d.ip_address = host ∧ d.port = port ∧ d.owner_id = owner) := by
  constructor
  · intro s name host port owner now h
    have hB : (name == "" || host == "") = true := by
      rcases h with h | h <;> simp [h]
    have hmem : Err.ValidationError ∈ deviceErrors name host port := by
      unfold deviceErrors
      rw [if_pos hB]
      exact List.mem_append_right _ (List.mem_singleton.2 rfl)
    have hne : (deviceErrors name host port).isEmpty = false := by
      cases hh : deviceErrors name host port with
      | nil => rw [hh] at hmem; cases hmem
      | cons a l => rfl
    have herr : registerDevice s name host port owner now =
        Except.error (deviceErrors name host port) := by
      unfold registerDevice
      rw [if_neg (by simp [hne])]
    refine ⟨deviceErrors name host port, herr, hmem, ?_⟩
    intro s' hok
    rw [herr] at hok
    cases hok
  · intro s name host port owner now s' h
    unfold registerDevice at h
    by_cases he : (deviceErrors name host port).isEmpty
    · rw [if_pos he] at h
      cases h
      exact ⟨_, rfl, rfl, rfl, rfl, rfl, rfl, rfl, rfl⟩
    · rw [if_neg he] at h
      exact absurd h (by simp)

/-- C10: deleting a team keeps every device: the device table keeps its
length, each surviving row agrees with its source row on every column
other than `team_id`, rows that referenced the deleted team get
`team_id := none` (`ON DELETE SET NULL`), rows that did not keep their
`team_id`, and the command table is untouched. -/
theorem c10_delete_team_frame :
    ∀ (s : Store) (u tid : Nat) (s' : Store),
      deleteTeam s u tid = Except.ok s' →
      s'.commands = s.commands ∧
      s'.devices.length = s.devices.length ∧
      (∀ d2 ∈ s'.devices, ∃ d1 ∈ s.devices, d1.id = d2.id ∧ d2.name = d1.name ∧
        d2.ip_address = d1.ip_address ∧ d2.port = d1.port ∧ d2.owner_id = d1.owner_id ∧
        d2.status = d1.status ∧ d2.last_seen = d1.last_seen ∧ d2.created_at = d1.created_at ∧
        (d1.team_id = some tid → d2.team_id = none) ∧
        (d1.team_id ≠ some tid → d2.team_id = d1.team_id)) := by
  intro s u tid s' h
  unfold deleteTeam at h
  cases hf : findTeam s tid with
  | none => rw [hf] at h; exact absurd h (by simp)
  | some t =>
    rw [hf] at h
    dsimp only at h
    by_cases hcr : t.created_by == u
    · rw [if_pos hcr] at h
      cases h
      refine ⟨rfl, List.length_map _ _, ?_⟩
      intro d2 hd2
      simp only [List.mem_map] at hd2
      obtain ⟨x, hx, hfx⟩ := hd2
      by_cases hid : x.team_id == some tid
      · rw [if_pos hid] at hfx
        have hxid : x.team_id = some tid := by simpa using (hid : (x.team_id == some tid) = true)
        refine ⟨x, hx, by rw [← hfx], by rw [← hfx], by rw [← hfx], by rw [← hfx],
          by rw [← hfx], by rw [← hfx], by rw [← hfx], by rw [← hfx],
          fun _ => by rw [← hfx], fun hne => absurd hxid hne⟩
      · rw [if_neg hid] at hfx
        have hxid : x.team_id ≠ some tid := by simpa using hid
        refine ⟨x, hx, by rw [hfx], by rw [hfx], by rw [hfx], by rw [hfx],
          by rw [hfx], by rw [hfx], by rw [hfx], by rw [hfx],
          fun hh => absurd hh hxid, fun _ => by rw [hfx]⟩
    · rw [if_neg hcr] at h
      exact absurd h (by simp)

def w8After : Store :=
  { teams := [], team_members := [],
    devices := [{ id := 1, name := "Prime", ip_address := "10.0.0.1", port := 3000,
                  owner_id := 7, team_id := none, status := DeviceStatus.unknown,
                  last_seen := none, created_at := 0 }],
    commands := [] }

theorem c8_register_validation_witness :
    (∃ errs, registerDevice emptyStore "" "10.0.0.1" 3000 7 0 = Except.error errs ∧
      Err.ValidationError ∈ errs ∧
      ∀ s', registerDevice emptyStore "" "10.0.0.1" 3000 7 0 ≠ Except.ok s') ∧
    ∃ d : Device, w8After.devices = emptyStore.devices ++ [d] ∧
      d.status = DeviceStatus.unknown ∧ d.team_id = none ∧ d.last_seen = none ∧
      d.name = "Prime" ∧ d.ip_address = "10.0.0.1" ∧ d.port = 3000 ∧ d.owner_id = 7 :=
  ⟨c8_register_validation.1 emptyStore "" "10.0.0.1" 3000 7 0 (Or.inl rfl),
   c8_register_validation.2 emptyStore "Prime" "10.0.0.1" 3000 7 0 w8After (by rfl)⟩

def w10After : Store :=
  { teams := [], team_members := [],
    devices := [{ w3Dev with team_id := none }], commands := [] }

theorem c10_delete_team_frame_witness :
    w10After.commands = w3Store.commands ∧
    w10After.devices.length = w3Store.devices.length ∧
    (∀ d2 ∈ w10After.devices, ∃ d1 ∈ w3Store.devices, d1.id = d2.id ∧ d2.name = d1.name ∧
      d2.ip_address = d1.ip_address ∧ d2.port = d1.port ∧ d2.owner_id = d1.owner_id ∧
      d2.status = d1.status ∧ d2.last_seen = d1.last_seen ∧ d2.created_at = d1.created_at ∧
      (d1.team_id = some 1 → d2.team_id = none) ∧
      (d1.team_id ≠ some 1 → d2.team_id = d1.team_id)) :=
  c10_delete_team_frame w3Store 7 1 w10After (by rfl)

/-- Store refuting the claim that an admin-role team member may update a
team device: team 1 is created by user 10; user 20 holds an explicit
`admin` membership row in team 1; device 1 belongs to team 1 and is
owned by user 10. -/
def c9Dev : Device :=
  { id := 1, name := "Prime", ip_address := "10.0.0.1", port := 3000,
    owner_id := 10, team_id := some 1, status := DeviceStatus.unknown,
    last_seen := none, created_at := 0 }

def c9Store : Store :=
  { teams := [{ id := 1, name := "T", created_by := 10, created_at := 0 }],
    team_members := [{ id := 1, team_id := 1, user_id := 20, role := Role.admin,
                       joined_at := 0 }],
    devices := [c9Dev], commands := [] }

/-- C9 counterexample: user 20 holds the `admin` role in the membership
relation of device 1's team, yet the `devices` UPDATE policies (which
test `teams.created_by`, not the membership role) do not authorize user
20, and an edit attempt fails with `NotAuthorized`. -/
theorem c9_team_admin_update_counterexample :
    (∃ m ∈ c9Store.team_members, m.team_id = 1 ∧ m.user_id = 20 ∧ m.role = Role.admin) ∧
    c9Dev ∈ c9Store.devices ∧ c9Dev.team_id = some 1 ∧ c9Dev.owner_id ≠ 20 ∧
    canUpdateDevice c9Store 20 c9Dev = false ∧
    editDevice c9Store 20 1 "Prime" "10.0.0.1" 3000 = Except.error [Err.NotAuthorized] := by
  refine ⟨⟨{ id := 1, team_id := 1, user_id := 20, role := Role.admin, joined_at := 0 },
    by decide, by decide⟩, by decide, rfl, by decide, by decide, by rfl⟩

/-- C9 amended: for a device assigned to a team, the creator of that
team is authorized to update the device; a user who is neither the
device's owner nor the creator of its team is not; and the delete
predicate holds exactly for the owner, so any non-owner delete attempt
fails with `NotAuthorized`. -/
theorem c9_device_update_delete_auth :
    (∀ (s : Store) (d : Device) (tid u : Nat),
      d ∈ s.devices → d.team_id = some tid →
      (∃ t ∈ s.teams, t.id = tid ∧ t.created_by = u) →
      canUpdateDevice s u d = true) ∧
    (∀ (s : Store) (d : Device) (tid u : Nat),
      d ∈ s.devices → d.team_id = some tid →
      d.owner_id ≠ u → (∀ t ∈ s.teams, t.id = tid → t.created_by ≠ u) →
      canUpdateDevice s u d = false) ∧
    (∀ (u : Nat) (d : Device), canDeleteDevice u d = true ↔ d.owner_id = u) ∧
    (∀ (s : Store) (u devId : Nat) (d : Device),
      findDevice s devId = some d → d.owner_id ≠ u →
      deleteDevice s u devId = Except.error Err.NotAuthorized) := by
  refine ⟨?_, ?_, ?_, ?_⟩
  · intro s d tid u hd hteam ⟨t, ht, htid, hcr⟩
    unfold canUpdateDevice
    rw [hteam]
    simp only [Bool.or_eq_true, beq_iff_eq]
    right
    unfold isTeamCreator
    rw [List.any_eq_true]
    exact ⟨t, ht, by simp [htid, hcr]⟩
  · intro s d tid u hd hteam howner hcr
    unfold canUpdateDevice
    rw [hteam]
    simp only [Bool.or_eq_false_iff]
    refine ⟨by simpa using howner, ?_⟩
    unfold isTeamCreator
    rw [List.any_eq_false]
    intro t ht
    simp only [Bool.and_eq_true, beq_iff_eq, not_and]
    exact fun htid => hcr t ht htid
  · intro u d
    unfold canDeleteDevice
    exact beq_iff_eq
  · intro s u devId d hfind howner
    have hcan : canDeleteDevice u d = false := by
      unfold canDeleteDevice
      simpa using howner
    simp [deleteDevice, hfind, hcan]

def w9Dev : Device :=
  { id := 2, name := "VIP", ip_address := "10.0.0.2", port := 3001,
    owner_id := 30, team_id := some 1, status := DeviceStatus.unknown,
    last_seen := none, created_at := 0 }

def w9Store : Store :=
  { teams := [{ id := 1, name := "T", created_by := 10, created_at := 0 }],
    team_members := [], devices := [w9Dev], commands := [] }

theorem c9_device_update_delete_auth_witness :
    canUpdateDevice w9Store 10 w9Dev = true ∧
    canUpdateDevice w9Store 20 w9Dev = false ∧
    (canDeleteDevice 30 w9Dev = true ↔ w9Dev.owner_id = 30) ∧
    deleteDevice w9Store 10 2 = Except.error Err.NotAuthorized :=
  ⟨c9_device_update_delete_auth.1 w9Store w9Dev 1 10 (by decide) rfl
     ⟨{ id := 1, name := "T", created_by := 10, created_at := 0 }, by decide, rfl, rfl⟩,
   c9_device_update_delete_auth.2.1 w9Store w9Dev 1 20 (by decide) rfl (by decide) (by decide),
   c9_device_update_delete_auth.2.2.1 30 w9Dev,
   c9_device_update_delete_auth.2.2.2 w9Store 10 2 w9Dev rfl (by decide)⟩

theorem deviceErrors_nil {name host : String} {port : Int}
    (h : deviceErrors name host port = []) :
    1 ≤ port ∧ port ≤ 65535 ∧ name ≠ "" ∧ host ≠ "" := by
  unfold deviceErrors at h
  by_cases h1 : (decide (port < 1) || decide (port > 65535)) = true
  · rw [if_pos h1] at h
    simp at h
  · rw [if_neg h1] at h
    by_cases h2 : (name == "" || host == "") = true
    · rw [if_pos h2] at h
      simp at h
    · simp only [Bool.or_eq_true, decide_eq_true_eq, not_or] at h1
      simp only [Bool.or_eq_true, beq_iff_eq, not_or] at h2
      exact ⟨by omega, by omega, h2.1, h2.2⟩

theorem registerDevice_ok_inv {s s' : Store} {name host : String} {port : Int}
    {owner now : Nat}
    (h : registerDevice s name host port owner now = Except.ok s') :
    deviceErrors name host port = [] ∧
    s' = { s with devices := s.devices ++
      [{ id := freshId (s.devices.map Device.id), name := name, ip_address := host,
         port := port, owner_id := owner, team_id := none,
         status := DeviceStatus.unknown, last_seen := none, created_at := now }] } := by
  unfold registerDevice at h
  by_cases he : (deviceErrors name host port).isEmpty
  · rw [if_pos he] at h
    cases h
    exact ⟨List.isEmpty_iff.1 he, rfl⟩
  · rw [if_neg he] at h
    exact absurd h (by simp)

theorem editDevice_ok_inv {s s' : Store} {u devId : Nat} {name host : String} {port : Int}
    (h : editDevice s u devId name host port = Except.ok s') :
    deviceErrors name host port = [] ∧ ∃ d, findDevice s devId = some d ∧
      canUpdateDevice s u d = true ∧
      s' = { s with devices := s.devices.map fun x =>
        if x.id == devId then { x with name := name, ip_address := host, port := port }
        else x } := by
  unfold editDevice at h
  by_cases he : (deviceErrors name host port).isEmpty
  · rw [if_pos he] at h
    cases hf : findDevice s devId with
    | none => rw [hf] at h; exact absurd h (by simp)
    | some d =>
      rw [hf] at h
      dsimp only at h
      by_cases hcan : canUpdateDevice s u d
      · rw [if_pos hcan] at h
        cases h
        exact ⟨List.isEmpty_iff.1 he, d, rfl, hcan, rfl⟩
      · rw [if_neg hcan] at h
        exact absurd h (by simp)
  · rw [if_neg he] at h
    exact absurd h (by simp)

theorem deleteDevice_ok_inv {s s' : Store} {u devId : Nat}
    (h : deleteDevice s u devId = Except.ok s') :
    ∃ d, findDevice s devId = some d ∧ canDeleteDevice u d = true ∧
      s' = { s with
        devices := s.devices.filter (fun x => x.id != devId),
        commands := s.commands.filter (fun c => c.device_id != devId) } := by
  unfold deleteDevice at h
  cases hf : findDevice s devId with
  | none => rw [hf] at h; exact absurd h (by simp)
  | some d =>
    rw [hf] at h
    dsimp only at h
    by_cases hcan : canDeleteDevice u d
    · rw [if_pos hcan] at h
      cases h
      exact ⟨d, rfl, hcan, rfl⟩
    · rw [if_neg hcan] at h
      exact absurd h (by simp)

theorem issueCommand_ok_inv {s s' : Store} {u devId : Nat} {ct : CommandType} {now : Nat}
    (h : issueCommand s u devId ct now = Except.ok s') :
    ∃ d, findDevice s devId = some d ∧ canSendCommand s u d = true ∧
      s' = { s with commands := s.commands ++
        [{ id := freshId (s.commands.map Command.id), device_id := devId,
           command_type := ct, payload := "\x7b\x7d", status := CommandStatus.pending,
           sent_by := u, sent_at := now, executed_at := none }] } := by
  unfold issueCommand at h
  cases hf : findDevice s devId with
  | none => rw [hf] at h; exact absurd h (by simp)
  | some d =>
    rw [hf] at h
    dsimp only at h
    by_cases hcan : canSendCommand s u d
    · rw [if_pos hcan] at h
      cases h
      exact ⟨d, rfl, hcan, rfl⟩
    · rw [if_neg hcan] at h
      exact absurd h (by simp)

theorem reportStatus_ok_inv {s s' : Store} {cid : Nat} {ns : CommandStatus} {t : Nat}
    (h : reportStatus s cid ns t = Except.ok s') :
    ∃ c, findCommand s cid = some c ∧ canTransition c.status ns = true ∧
      s' = { s with commands := s.commands.map fun x =>
        if x.id == cid then
          { x with status := ns,
                   executed_at := if ns == CommandStatus.executed then some t
                                  else x.executed_at }
        else x } := by
  unfold reportStatus at h
  cases hf : findCommand s cid with
  | none => rw [hf] at h; exact absurd h (by simp)
  | some c =>
    rw [hf] at h
    dsimp only at h
    by_cases hct : canTransition c.status ns
    · rw [if_pos hct] at h
      cases h
      exact ⟨c, rfl, hct, rfl⟩
    · rw [if_neg hct] at h
      exact absurd h (by simp)

theorem addMember_ok_inv {s s' : Store} {actor tid uid now : Nat}
    (h : addMember s actor tid uid now = Except.ok s') :
    ∃ t, findTeam s tid = some t ∧
      s' = { s with team_members := s.team_members ++
        [{ id := freshId (s.team_members.map TeamMember.id), team_id := tid,
           user_id := uid, role := Role.member, joined_at := now }] } := by
  unfold addMember at h
  cases hf : findTeam s tid with
  | none => rw [hf] at h; exact absurd h (by simp)
  | some t =>
    rw [hf] at h
    dsimp only at h
    by_cases hcr : t.created_by == actor
    · rw [if_pos hcr] at h
      cases h
      exact ⟨t, rfl, rfl⟩
    · rw [if_neg hcr] at h
      exact absurd h (by simp)

theorem removeMember_ok_inv {s s' : Store} {actor mid : Nat}
    (h : removeMember s actor mid = Except.ok s') :
    s' = { s with team_members := s.team_members.filter fun x => x.id != mid } := by
  unfold removeMember at h
  cases hf : findMember s mid with
  | none => rw [hf] at h; exact absurd h (by simp)
  | some m =>
    rw [hf] at h
    dsimp only at h
    by_cases hcr : (isTeamCreator s m.team_id actor || m.user_id == actor) = true
    · rw [if_pos hcr] at h
      cases h
      rfl
    · rw [if_neg hcr] at h
      exact absurd h (by simp)

theorem deleteTeam_ok_inv {s s' : Store} {actor tid : Nat}
    (h : deleteTeam s actor tid = Except.ok s') :
    s' = { s with
      teams := s.teams.filter (fun x => x.id != tid),
      team_members := s.team_members.filter (fun m => m.team_id != tid),
      devices := s.devices.map fun d =>
        if d.team_id == some tid then { d with team_id := none } else d } := by
  unfold deleteTeam at h
  cases hf : findTeam s tid with
  | none => rw [hf] at h; exact absurd h (by simp)
  | some t =>
    rw [hf] at h
    dsimp only at h
    by_cases hcr : t.created_by == actor
    · rw [if_pos hcr] at h
      cases h
      rfl
    · rw [if_neg hcr] at h
      exact absurd h (by simp)

/-- The `CHECK (port > 0 AND port <= 65535)` table invariant, stated over
the whole device table. -/
def PortInv (s : Store) : Prop :=
  ∀ d ∈ s.devices, 1 ≤ d.port ∧ d.port ≤ 65535

theorem step_portInv {s s' : Store} (st : Step s s') (h : PortInv s) : PortInv s' := by
  cases st with
  | register name host port owner now hok =>
    obtain ⟨herr, hs'⟩ := registerDevice_ok_inv hok
    obtain ⟨hp1, hp2, -, -⟩ := deviceErrors_nil herr
    subst hs'
    intro d hd
    rcases List.mem_append.1 hd with hd | hd
    · exact h d hd
    · rcases List.mem_singleton.1 hd with rfl
      exact ⟨hp1, hp2⟩
  | edit actor devId name host port hok =>
    obtain ⟨herr, d0, -, -, hs'⟩ := editDevice_ok_inv hok
    obtain ⟨hp1, hp2, -, -⟩ := deviceErrors_nil herr
    subst hs'
    intro d hd
    simp only [List.mem_map] at hd
    obtain ⟨x, hx, hfx⟩ := hd
    by_cases hid : x.id == devId
    · rw [if_pos hid] at hfx
      rw [← hfx]
      exact ⟨hp1, hp2⟩
    · rw [if_neg hid] at hfx
      rw [← hfx]
      exact h x hx
  | deleteDev actor devId hok =>
    obtain ⟨d0, -, -, hs'⟩ := deleteDevice_ok_inv hok
    subst hs'
    intro d hd
    exact h d (List.mem_of_mem_filter hd)
  | issue actor devId ctype now hok =>
    obtain ⟨d0, -, -, hs'⟩ := issueCommand_ok_inv hok
    subst hs'
    exact h
  | report cid ns t hok =>
    obtain ⟨c0, -, -, hs'⟩ := reportStatus_ok_inv hok
    subst hs'
    exact h
  | beat devId now hs' =>
    subst hs'
    intro d hd
    simp only [heartbeat, List.mem_map] at hd
    obtain ⟨x, hx, hfx⟩ := hd
    by_cases hid : x.id == devId
    · rw [if_pos hid] at hfx
      rw [← hfx]
      exact h x hx
    · rw [if_neg hid] at hfx
      rw [← hfx]
      exact h x hx
  | mkTeam actor name now hs' =>
    subst hs'
    exact h
  | addMem actor tid uid now hok =>
    obtain ⟨t0, -, hs'⟩ := addMember_ok_inv hok
    subst hs'
    exact h
  | removeMem actor mid hok =>
    have hs' := removeMember_ok_inv hok
    subst hs'
    exact h
  | deleteTm actor tid hok =>
    have hs' := deleteTeam_ok_inv hok
    subst hs'
    intro d hd
    simp only [List.mem_map] at hd
    obtain ⟨x, hx, hfx⟩ := hd
    by_cases hid : x.team_id == some tid
    · rw [if_pos hid] at hfx
      rw [← hfx]
      exact h x hx
    · rw [if_neg hid] at hfx
      rw [← hfx]
      exact h x hx

theorem reachable_portInv {s : Store} (h : Reachable s) : PortInv s := by
  induction h with
  | refl => intro d hd; cases hd
  | tail hsteps hstep ih => exact step_portInv hstep ih

/-- C7: in every store reachable by the system's operations, every
device row satisfies 1 <= port <= 65535; and a registration whose port
lies outside that range is rejected with `InvalidPort` among the
reported violations, creating no row. -/
theorem c7_port_range :
    (∀ s : Store, Reachable s → ∀ d ∈ s.devices, 1 ≤ d.port ∧ d.port ≤ 65535) ∧
    (∀ (s : Store) (name host : String) (port : Int) (owner now : Nat),
      port < 1 ∨ 65535 < port →
      ∃ errs, registerDevice s name host port owner now = Except.error errs ∧
        Err.InvalidPort ∈ errs ∧
        ∀ s', registerDevice s name host port owner now ≠ Except.ok s') := by
  constructor
  · intro s h
    exact reachable_portInv h
  · intro s name host port owner now h
    have hA : (decide (port < 1) || decide (port > 65535)) = true := by
      rcases h with h | h <;> simp [h]
    have hmem : Err.InvalidPort ∈ deviceErrors name host port := by
      unfold deviceErrors
      rw [if_pos hA]
      exact List.mem_append_left _ (List.mem_singleton.2 rfl)
    have hne : (deviceErrors name host port).isEmpty = false := by
      cases hh : deviceErrors name host port with
      | nil => rw [hh] at hmem; cases hmem
      | cons a l => rfl
    have herr : registerDevice s name host port owner now =
        Except.error (deviceErrors name host port) := by
      unfold registerDevice
      rw [if_neg (by simp [hne])]
    refine ⟨deviceErrors name host port, herr, hmem, ?_⟩
    intro s' hok
    rw [herr] at hok
    cases hok

def r1Store : Store :=
  { teams := [], team_members := [],
    devices := [{ id := 1, name := "Prime", ip_address := "10.0.0.1", port := 3000,
                  owner_id := 7, team_id := none, status := DeviceStatus.unknown,
                  last_seen := none, created_at := 0 }],
    commands := [] }

theorem r1_reachable : Reachable r1Store :=
  Relation.ReflTransGen.single
    (Step.register emptyStore r1Store "Prime" "10.0.0.1" 3000 7 0 (by rfl))

theorem c7_port_range_witness :
    (∀ d ∈ r1Store.devices, 1 ≤ d.port ∧ d.port ≤ 65535) ∧
    ∃ errs, registerDevice emptyStore "Prime" "10.0.0.1" 0 7 0 = Except.error errs ∧
      Err.InvalidPort ∈ errs ∧
      ∀ s', registerDevice emptyStore "Prime" "10.0.0.1" 0 7 0 ≠ Except.ok s' :=
  ⟨c7_port_range.1 r1Store r1_reachable,
   c7_port_range.2 emptyStore "Prime" "10.0.0.1" 0 7 0 (Or.inl (by decide))⟩

/-- Primary-key uniqueness of the `commands.id` column. -/
def CmdIdsNodup (s : Store) : Prop :=
  s.commands.Pairwise fun a b => a.id ≠ b.id

/-- The section 8 invariant: `executed_at` is non-null iff status is
`executed`, over the whole command table. -/
def ExecInv (s : Store) : Prop :=
  ∀ c ∈ s.commands, (c.executed_at ≠ none ↔ c.status = CommandStatus.executed)

theorem canTransition_source {a b : CommandStatus} (h : canTransition a b = true) :
    a = CommandStatus.pending ∨ a = CommandStatus.delivered := by
  cases a <;> cases b <;> simp_all [canTransition]

theorem step_cmdInv {s s' : Store} (st : Step s s')
    (h : CmdIdsNodup s ∧ ExecInv s) : CmdIdsNodup s' ∧ ExecInv s' := by
  cases st with
  | register name host port owner now hok =>
    obtain ⟨-, hs'⟩ := registerDevice_ok_inv hok
    subst hs'
    exact h
  | edit actor devId name host port hok =>
    obtain ⟨-, d0, -, -, hs'⟩ := editDevice_ok_inv hok
    subst hs'
    exact h
  | deleteDev actor devId hok =>
    obtain ⟨d0, -, -, hs'⟩ := deleteDevice_ok_inv hok
    subst hs'
    refine ⟨h.1.sublist (List.filter_sublist _), ?_⟩
    intro c hc
    exact h.2 c (List.mem_of_mem_filter hc)
  | issue actor devId ctype now hok =>
    obtain ⟨d0, -, -, hs'⟩ := issueCommand_ok_inv hok
    subst hs'
    constructor
    · rw [CmdIdsNodup]
      rw [List.pairwise_append]
      refine ⟨h.1, List.pairwise_singleton _ _, ?_⟩
      intro a ha b hb
      rcases List.mem_singleton.1 hb with rfl
      intro heq
      exact freshId_not_mem _ (heq ▸ List.mem_map_of_mem Command.id ha)
    · intro c hc
      rcases List.mem_append.1 hc with hc | hc
      · exact h.2 c hc
      · rcases List.mem_singleton.1 hc with rfl
        simp
  | report cid ns t hok =>
    obtain ⟨c, hfc, hct, hs'⟩ := reportStatus_ok_inv hok
    subst hs'
    have hcexec : c.status ≠ CommandStatus.executed := by
      rcases canTransition_source hct with h1 | h1 <;> rw [h1] <;> intro hx <;> cases hx
    obtain ⟨hcmem, hcid⟩ := find_command_mem hfc
    have hcnone : c.executed_at = none := by
      by_cases hne : c.executed_at = none
      · exact hne
      · exact absurd ((h.2 c hcmem).1 hne) hcexec
    have hidpres : ∀ x : Command,
        ((fun x => if x.id == cid then
          { x with status := ns,
                   executed_at := if ns == CommandStatus.executed then some t
                                  else x.executed_at }
          else x) x).id = x.id := by
      intro x
      by_cases hid : x.id == cid <;> simp [hid]
    constructor
    · exact List.Pairwise.map _
        (fun a b hab => by rw [hidpres a, hidpres b]; exact hab) h.1
    · intro c2 hc2
      simp only [List.mem_map] at hc2
      obtain ⟨x, hx, hfx⟩ := hc2
      by_cases hid : x.id == cid
      · have hxid : x.id = cid := by simpa using hid
        have hxc : x = c := by
          by_cases hxc : x = c
          · exact hxc
          · exact absurd (hxid.trans hcid.symm)
              (h.1.forall (fun a b hab => fun e => hab e.symm) hx hcmem hxc)
        rw [if_pos hid] at hfx
        rw [← hfx]
        by_cases hnse : ns = CommandStatus.executed
        · subst hnse
          simp
        · have hnsb : (ns == CommandStatus.executed) = false := by simpa using hnse
          rw [hxc]
          simp [hnsb, hcnone, hnse]
      · rw [if_neg hid] at hfx
        rw [← hfx]
        exact h.2 x hx
  | beat devId now hs' =>
    subst hs'
    exact h
  | mkTeam actor name now hs' =>
    subst hs'
    exact h
  | addMem actor tid uid now hok =>
    obtain ⟨t0, -, hs'⟩ := addMember_ok_inv hok
    subst hs'
    exact h
  | removeMem actor mid hok =>
    have hs' := removeMember_ok_inv hok
    subst hs'
    exact h
  | deleteTm actor tid hok =>
    have hs' := deleteTeam_ok_inv hok
    subst hs'
    exact h

theorem reachable_cmdInv {s : Store} (h : Reachable s) : CmdIdsNodup s ∧ ExecInv s := by
  induction h with
  | refl => exact ⟨List.Pairwise.nil, fun c hc => by cases hc⟩
  | tail hsteps hstep ih => exact step_cmdInv hstep ih

/-- C2: in every store reachable by the system's operations,
`executed_at` is non-null exactly on commands of status `executed`; the
transition into `executed` sets `executed_at` in the same update; and a
transition to any other status leaves every `executed_at` value as it
was. -/
theorem c2_executed_at_iff :
    (∀ s : Store, Reachable s →
      ∀ c ∈ s.commands, c.executed_at ≠ none ↔ c.status = CommandStatus.executed) ∧
    (∀ (s : Store) (cid t : Nat) (s' : Store),
      reportStatus s cid CommandStatus.executed t = Except.ok s' →
      ∀ c ∈ s'.commands, c.id = cid → c.executed_at = some t) ∧
    (∀ (s : Store) (cid : Nat) (ns : CommandStatus) (t : Nat) (s' : Store),
      ns ≠ CommandStatus.executed → reportStatus s cid ns t = Except.ok s' →
      ∀ c2 ∈ s'.commands, ∃ c1 ∈ s.commands, c1.id = c2.id ∧
        c2.executed_at = c1.executed_at) := by
  refine ⟨?_, ?_, ?_⟩
  · intro s hr
    exact (reachable_cmdInv hr).2
  · intro s cid t s' hok c hc hcid
    obtain ⟨c0, -, -, hs'⟩ := reportStatus_ok_inv hok
    subst hs'
    simp only [List.mem_map] at hc
    obtain ⟨x, hx, hfx⟩ := hc
    by_cases hid : x.id == cid
    · rw [if_pos hid] at hfx
      rw [← hfx]
      simp
    · rw [if_neg hid] at hfx
      exfalso
      rw [← hfx] at hcid
      exact absurd (by simpa using hcid) (by simpa using hid)
  · intro s cid ns t s' hns hok c2 hc2
    obtain ⟨c0, -, -, hs'⟩ := reportStatus_ok_inv hok
    subst hs'
    simp only [List.mem_map] at hc2
    obtain ⟨x, hx, hfx⟩ := hc2
    have hnsb : (ns == CommandStatus.executed) = false := by simpa using hns
    by_cases hid : x.id == cid
    · rw [if_pos hid] at hfx
      refine ⟨x, hx, by rw [← hfx], ?_⟩
      rw [← hfx]
      simp [hnsb]
    · rw [if_neg hid] at hfx
      exact ⟨x, hx, by rw [hfx], by rw [hfx]⟩

def r2Store : Store :=
  { r1Store with commands :=
      [{ id := 1, device_id := 1, command_type := CommandType.unmute_zoom,
         payload := "\x7b\x7d", status := CommandStatus.pending, sent_by := 7,
         sent_at := 5, executed_at := none }] }

theorem r2_reachable : Reachable r2Store :=
  Relation.ReflTransGen.tail r1_reachable
    (Step.issue r1Store r2Store 7 1 CommandType.unmute_zoom 5 (by rfl))

def r3Store : Store :=
  { r1Store with commands :=
      [{ id := 1, device_id := 1, command_type := CommandType.unmute_zoom,
         payload := "\x7b\x7d", status := CommandStatus.delivered, sent_by := 7,
         sent_at := 5, executed_at := none }] }

def r4Store : Store :=
  { r1Store with commands :=
      [{ id := 1, device_id := 1, command_type := CommandType.unmute_zoom,
         payload := "\x7b\x7d", status := CommandStatus.executed, sent_by := 7,
         sent_at := 5, executed_at := some 9 }] }

theorem c2_executed_at_iff_witness :
    (∀ c ∈ r2Store.commands, c.executed_at ≠ none ↔ c.status = CommandStatus.executed) ∧
    ∀ c ∈ r4Store.commands, c.id = 1 → c.executed_at = some 9 :=
  ⟨c2_executed_at_iff.1 r2Store r2_reachable,
   c2_executed_at_iff.2.1 r3Store 1 9 r4Store (by rfl)⟩

end ControlPanel
